import Mathlib

/-!
Transcoding profiles and command synthesis (`transcode/transcode.go`).

A shallow embedding of the `transcode` package: the `Profile` value type with its
constructor, accessors and copy-on-write setters, the built-in registry
`UserProfiles`, and the command synthesizer `parseProfile`.

Modelling conventions.

* `BitRate` is Go's `uint`; no arithmetic is ever performed on it, so it is a `Nat`.
* `time.Duration` is a signed 64-bit count of nanoseconds; the only arithmetic on it
  is the division by `1000` in `Duration.Microseconds`, which cannot overflow, so it
  is an `Int` and the division is Go's truncating division `Int.tdiv`.
* `shlex.Split` and `exec.LookPath` belong to other packages and to the process
  environment. They are parameters `split` and `lookPath` of `parseProfile`, each
  returning either a result or an error of an arbitrary error type.
* Go's `(string, []string, error)` result is the triple
  `String × List String × Option ParseError`; a `nil` slice is `[]` and a `nil`
  error is `none`.
* `fmt.Sprintf` with the verb `%d` is `sprintfD` (signed) and `sprintfU` (unsigned).
-/

namespace Transcode

/-! ## Data model -/

/-- Go `type BitRate uint` (kilobits per second). -/
abbrev BitRate := Nat

/-- Go `time.Duration`: a signed count of nanoseconds. -/
abbrev Duration := Int

/-- Go `type Profile struct`, with its five unexported fields in source order. -/
structure Profile where
  bitrate : BitRate
  seek : Duration
  mime : String
  suffix : String
  exec : String
  deriving DecidableEq

/-- The zero value of `Profile`, which Go gives to a variable declared without an
initialiser. -/
def Profile.zero : Profile := ⟨0, 0, "", "", ""⟩

/-- Method `func (p *Profile) BitRate() BitRate`. -/
def Profile.BitRate (p : Profile) : BitRate := p.bitrate

/-- Method `func (p *Profile) Seek() time.Duration`. -/
def Profile.Seek (p : Profile) : Duration := p.seek

/-- Method `func (p *Profile) Suffix() string`. -/
def Profile.Suffix (p : Profile) : String := p.suffix

/-- Method `func (p *Profile) MIME() string`. -/
def Profile.MIME (p : Profile) : String := p.mime

/-- Function `NewProfile`: a composite literal that names four fields; the fifth,
`seek`, keeps its zero value. -/
def NewProfile (mime : String) (suffix : String) (bitrate : BitRate) (exec : String) : Profile :=
  ⟨bitrate, 0, mime, suffix, exec⟩

/-- Function `WithBitrate`: the parameter is a copy of the caller's value; one field
of the copy is assigned and the copy is returned. -/
def WithBitrate (p : Profile) (bitRate : BitRate) : Profile :=
  ⟨bitRate, p.seek, p.mime, p.suffix, p.exec⟩

/-- Function `WithSeek`: the parameter is a copy of the caller's value; one field of
the copy is assigned and the copy is returned. -/
def WithSeek (p : Profile) (seek : Duration) : Profile :=
  ⟨p.bitrate, seek, p.mime, p.suffix, p.exec⟩

/-! ## Built-in profiles and the registry -/

/-- Package variable `MP3 Profile`, declared without an initialiser. -/
def MP3 : Profile := Profile.zero

/-- Package variable `MP3RG Profile`, declared without an initialiser. -/
def MP3RG : Profile := Profile.zero

/-- Package variable `Opus Profile`, declared without an initialiser. -/
def Opus : Profile := Profile.zero

/-- Package variable `OpusRG Profile`, declared without an initialiser. -/
def OpusRG : Profile := Profile.zero

/-- Package variable `OpusRGLoud Profile`, declared without an initialiser. -/
def OpusRGLoud : Profile := Profile.zero

/-- Package variable `Opus128 Profile`, declared without an initialiser. -/
def Opus128 : Profile := Profile.zero

/-- Package variable `Opus128RG Profile`, declared without an initialiser. -/
def Opus128RG : Profile := Profile.zero

/-- Package variable `Opus128RGLoud Profile`, declared without an initialiser. -/
def Opus128RGLoud : Profile := Profile.zero

/-- Package variable `Opus192 Profile`, declared without an initialiser. -/
def Opus192 : Profile := Profile.zero

/-- Package variable `UserProfiles`, a map literal, as the list of its key/value
pairs in source order. -/
def UserProfiles : List (String × Profile) :=
  [ ("mp3", MP3),
    ("mp3_rg", MP3RG),
    ("opus_car", OpusRGLoud),
    ("opus", Opus),
    ("opus_rg", OpusRG),
    ("opus_128_car", Opus128RGLoud),
    ("opus_128", Opus128),
    ("opus_128_rg", Opus128RG),
    ("opus_192", Opus192) ]

/-- Map indexing `UserProfiles[name]` in its two-result form: the entry, if any. -/
def lookupProfile (name : String) : Option Profile :=
  UserProfiles.lookup name

/-! ## Formatting -/

/-- Go `fmt.Sprintf("%d", n)` at an unsigned integer: the decimal digits of `n`. -/
def sprintfU (n : Nat) : String :=
  (Nat.toDigits 10 n).asString

/-- Go `fmt.Sprintf("%d", z)` at a signed integer: a minus sign for a negative
value, then the decimal digits of the magnitude. -/
def sprintfD (z : Int) : String :=
  if z < 0 then "-" ++ sprintfU z.natAbs else sprintfU z.natAbs

/-- Go `func (d Duration) Microseconds() int64 { return int64(d) / 1e3 }`; integer
division in Go truncates toward zero. -/
def Microseconds (d : Duration) : Int :=
  Int.tdiv d 1000

/-- The number a list of decimal digit characters denotes, most significant digit
first. Used only to state what `sprintfU` produces. -/
def decimalValue (cs : List Char) : Nat :=
  cs.foldl (fun acc c => 10 * acc + (c.toNat - 48)) 0

/-! ## Command synthesis -/

/-- The errors `parseProfile` returns. `splitCommand` is
`fmt.Errorf("split command: %w", err)`, `noProfileParts` is the package variable
`ErrNoProfileParts`, and `findName` is `fmt.Errorf("find name: %w", err)`. -/
inductive ParseError (σ ε : Type) where
  | splitCommand (err : σ)
  | noProfileParts
  | findName (err : ε)
  deriving DecidableEq

/-- Package variable `ErrNoProfileParts`. -/
def ErrNoProfileParts {σ ε : Type} : ParseError σ ε := ParseError.noProfileParts

/-- One iteration of the loop over `parts[1:]` in `parseProfile`: the `switch` on the
token, each case appending one element to `args`. -/
def appendArg (profile : Profile) (inp : String) (args : List String) (p : String) :
    List String :=
  if p = "<file>" then args ++ [inp]
  else if p = "<seek>" then args ++ [sprintfD (Microseconds profile.Seek) ++ "us"]
  else if p = "<bitrate>" then args ++ [sprintfU profile.BitRate ++ "k"]
  else args ++ [p]

/-- Function `parseProfile`. `split` stands for `shlex.Split` and `lookPath` for
`exec.LookPath`. -/
def parseProfile {σ ε : Type} (split : String → Except σ (List String))
    (lookPath : String → Except ε String) (profile : Profile) (inp : String) :
    String × List String × Option (ParseError σ ε) :=
  match split profile.exec with
  | .error err => ("", [], some (ParseError.splitCommand err))
  | .ok parts =>
    match parts with
    | [] => ("", [], some ErrNoProfileParts)
    | part0 :: rest =>
      match lookPath part0 with
      | .error err => ("", [], some (ParseError.findName err))
      | .ok name => (name, rest.foldl (appendArg profile inp) [], none)

/-! ## Auxiliary definitions for the proofs -/

/-- The single argument the loop body of `parseProfile` appends for token `p`. -/
def argFor (profile : Profile) (inp : String) (p : String) : String :=
  if p = "<file>" then inp
  else if p = "<seek>" then sprintfD (Microseconds profile.Seek) ++ "us"
  else if p = "<bitrate>" then sprintfU profile.BitRate ++ "k"
  else p

/-- A tokenizer that returns a fixed token list, whatever the template. -/
def splitTo (parts : List String) : String → Except String (List String) :=
  fun _ => .ok parts

/-- A search path holding every program under `/usr/bin`. -/
def lookUsrBin : String → Except String String :=
  fun name => .ok ("/usr/bin/" ++ name)

/-- An empty search path. -/
def lookNothing : String → Except String String :=
  fun name => .error ("executable file not found in $PATH: " ++ name)

/-! ## Lemmas -/

/-! ### Decimal formatting -/

theorem digitChar_facts (m : Nat) (h : m < 10) :
    (Nat.digitChar m).isDigit = true ∧ (Nat.digitChar m).toNat - 48 = m
      ∧ (m ≠ 0 → Nat.digitChar m ≠ '0') := by
  interval_cases m <;> decide

theorem toDigitsCore_spec : ∀ (fuel n : Nat) (ds : List Char), n < fuel →
    ∃ pre : List Char, Nat.toDigitsCore 10 fuel n ds = pre ++ ds ∧ pre ≠ []
      ∧ (∀ c ∈ pre, c.isDigit = true) ∧ decimalValue pre = n
      ∧ (n ≠ 0 → pre.head? ≠ some '0') ∧ (n = 0 → pre = ['0']) := by
  intro fuel
  induction fuel with
  | zero => intro n ds h; omega
  | succ fuel ih =>
    intro n ds h
    have hd := digitChar_facts (n % 10) (Nat.mod_lt _ (by decide))
    by_cases h0 : n / 10 = 0
    · have hn : n % 10 = n := by omega
      refine ⟨[Nat.digitChar (n % 10)], ?_, by simp, ?_, ?_, ?_, ?_⟩
      · simp [Nat.toDigitsCore, h0]
      · intro c hc
        simp only [List.mem_singleton] at hc
        rw [hc]; exact hd.1
      · simp only [decimalValue, List.foldl_cons, List.foldl_nil, hd.2.1]
        omega
      · intro hne
        have := hd.2.2 (by omega)
        simpa using this
      · intro hz; subst hz; rfl
    · obtain ⟨pre, hpre, hne, hdig, hval, hhead, -⟩ :=
        ih (n / 10) (Nat.digitChar (n % 10) :: ds) (by omega)
      refine ⟨pre ++ [Nat.digitChar (n % 10)], ?_, by simp, ?_, ?_, ?_, ?_⟩
      · simp [Nat.toDigitsCore, h0, hpre]
      · intro c hc
        rcases List.mem_append.mp hc with hc | hc
        · exact hdig c hc
        · simp only [List.mem_singleton] at hc
          rw [hc]; exact hd.1
      · unfold decimalValue at hval ⊢
        rw [List.foldl_append, hval]
        simp only [List.foldl_cons, List.foldl_nil, hd.2.1]
        omega
      · intro _
        cases pre with
        | nil => exact absurd rfl hne
        | cons c cs => simpa using hhead h0
      · intro hz; omega

theorem sprintfU_spec (n : Nat) :
    ∃ digits : List Char, sprintfU n = String.mk digits ∧ digits ≠ []
      ∧ (∀ c ∈ digits, c.isDigit = true) ∧ decimalValue digits = n
      ∧ (n ≠ 0 → digits.head? ≠ some '0') ∧ (n = 0 → digits = ['0']) := by
  obtain ⟨pre, hpre, h⟩ := toDigitsCore_spec (n + 1) n [] (Nat.lt_succ_self n)
  refine ⟨pre, ?_, h⟩
  simp [sprintfU, Nat.toDigits, hpre, List.asString]

/-! ### The argument loop -/

theorem appendArg_eq (profile : Profile) (inp : String) (args : List String) (p : String) :
    appendArg profile inp args p = args ++ [argFor profile inp p] := by
  unfold appendArg argFor
  split_ifs <;> rfl

theorem foldl_appendArg (profile : Profile) (inp : String) (rest : List String) :
    ∀ acc : List String,
      rest.foldl (appendArg profile inp) acc = acc ++ rest.map (argFor profile inp) := by
  induction rest with
  | nil => intro acc; simp
  | cons tok rest ih =>
    intro acc
    simp [List.foldl_cons, ih, appendArg_eq]

theorem parseProfile_ok {σ ε : Type} (split : String → Except σ (List String))
    (lookPath : String → Except ε String) (profile : Profile) (inp : String)
    (part0 : String) (rest : List String) (name : String)
    (hs : split profile.exec = .ok (part0 :: rest)) (hl : lookPath part0 = .ok name) :
    parseProfile split lookPath profile inp
      = (name, rest.map (argFor profile inp), none) := by
  simp [parseProfile, hs, hl, foldl_appendArg]

theorem parseProfile_args_get {σ ε : Type} (split : String → Except σ (List String))
    (lookPath : String → Except ε String) (profile : Profile) (inp : String)
    (part0 : String) (rest : List String) (name : String)
    (hs : split profile.exec = .ok (part0 :: rest)) (hl : lookPath part0 = .ok name)
    (i : Nat) (tok : String) (hi : rest[i]? = some tok) :
    (parseProfile split lookPath profile inp).2.1[i]? = some (argFor profile inp tok) := by
  rw [parseProfile_ok split lookPath profile inp part0 rest name hs hl]
  simp [hi]

theorem count_argFor_ge (profile : Profile) (inp : String) (rest : List String) :
    List.count "<file>" rest ≤ List.count inp (rest.map (argFor profile inp)) :=
  List.count_le_count_map rest (argFor profile inp) "<file>"

theorem count_argFor_eq (profile : Profile) (inp : String) (rest : List String)
    (h : ∀ tok ∈ rest, tok ≠ "<file>" → argFor profile inp tok ≠ inp) :
    List.count inp (rest.map (argFor profile inp)) = List.count "<file>" rest := by
  induction rest with
  | nil => rfl
  | cons tok rest ih =>
    have ih1 := ih (fun t ht => h t (List.mem_cons_of_mem _ ht))
    rw [List.map_cons, List.count_cons, List.count_cons, ih1]
    by_cases htok : tok = "<file>"
    · subst htok
      have e : argFor profile inp "<file>" = inp := rfl
      simp [e]
    · have hne := h tok (List.mem_cons_self _ _) htok
      simp [htok, hne]

theorem argFor_ne_of_conditions (profile : Profile) (inp : String) (rest : List String)
    (hother : ∀ tok ∈ rest, tok ≠ "<file>" → tok ≠ "<seek>" → tok ≠ "<bitrate>" → tok ≠ inp)
    (hseek : "<seek>" ∈ rest → sprintfD (Microseconds profile.Seek) ++ "us" ≠ inp)
    (hbitrate : "<bitrate>" ∈ rest → sprintfU profile.BitRate ++ "k" ≠ inp) :
    ∀ tok ∈ rest, tok ≠ "<file>" → argFor profile inp tok ≠ inp := by
  intro tok hmem hfile
  by_cases hs : tok = "<seek>"
  · subst hs; exact hseek hmem
  · by_cases hb : tok = "<bitrate>"
    · subst hb; exact hbitrate hmem
    · have e : argFor profile inp tok = tok := by simp [argFor, hfile, hs, hb]
      rw [e]; exact hother tok hmem hfile hs hb

theorem sprintfD_natCast (m : Nat) : sprintfD (m : Int) = sprintfU m := by
  have h : ¬ ((m : Int) < 0) := by omega
  simp [sprintfD, h]

theorem Microseconds_of_whole (m : Int) : Microseconds (1000 * m) = m := by
  unfold Microseconds
  exact Int.mul_tdiv_cancel_left m (by decide)

/-! ### The registry and the seek arithmetic -/

theorem lookupProfile_zero (name : String) (p : Profile) (h : lookupProfile name = some p) :
    p = Profile.zero := by
  unfold lookupProfile UserProfiles at h
  simp only [List.lookup] at h
  repeat' split at h
  all_goals first
    | exact (Option.some.inj h).symm
    | exact absurd h (by simp)

theorem lookupProfile_isSome_iff (name : String) :
    (lookupProfile name).isSome = true ↔
      name ∈ ["mp3", "mp3_rg", "opus_car", "opus", "opus_rg", "opus_128_car", "opus_128",
        "opus_128_rg", "opus_192"] := by
  unfold lookupProfile UserProfiles
  simp only [List.lookup]
  repeat' split
  all_goals simp_all

theorem Microseconds_natAbs (n : Int) : (Microseconds n).natAbs = n.natAbs / 1000 := by
  unfold Microseconds
  rw [Int.natAbs_tdiv]
  rfl

theorem Microseconds_neg_iff (n : Int) : Microseconds n < 0 ↔ n ≤ -1000 := by
  unfold Microseconds
  rcases Int.le_total 0 n with h | h
  · rw [Int.tdiv_eq_ediv h (by decide)]
    omega
  · have hneg : n = -(-n) := by omega
    rw [hneg, Int.neg_tdiv, Int.tdiv_eq_ediv (by omega) (by decide)]
    omega

theorem appendArg_congr (p q : Profile) (f : String) (hseek : p.seek = q.seek)
    (hbitrate : p.bitrate = q.bitrate) : appendArg p f = appendArg q f := by
  funext args tok
  simp [appendArg, Profile.Seek, Profile.BitRate, hseek, hbitrate]

/-! ## Command synthesis: placeholder substitution -/

/-- C1: when the template tokenizes to a non-empty list `t` and the lookup of `t[0]`
gives `n`, `parseProfile` returns `(n, args, nil)` where `args` has `len(t) - 1`
elements and `args[i]` is the input path, the seek string, the bitrate string or
`t[i+1]` itself according to whether `t[i+1]` is exactly `<file>`, `<seek>`,
`<bitrate>` or anything else. The program name is the lookup of `t[0]` as it
stands. -/
theorem C1_parseProfile_substitutes_by_exact_token {σ ε : Type}
    (split : String → Except σ (List String)) (lookPath : String → Except ε String)
    (p : Profile) (f : String) (t : List String) (t0 n : String)
    (hs : split p.exec = .ok t) (h0 : t[0]? = some t0) (hl : lookPath t0 = .ok n) :
    ∃ args : List String,
      parseProfile split lookPath p f = (n, args, none)
      ∧ args.length = t.length - 1
      ∧ ∀ (i : Nat) (tok : String), t[i + 1]? = some tok →
          (tok = "<file>" → args[i]? = some f)
          ∧ (tok = "<seek>" → args[i]? = some (sprintfD (Microseconds p.Seek) ++ "us"))
          ∧ (tok = "<bitrate>" → args[i]? = some (sprintfU p.BitRate ++ "k"))
          ∧ (tok ≠ "<file>" → tok ≠ "<seek>" → tok ≠ "<bitrate>" → args[i]? = some tok) := by
  cases t with
  | nil => simp at h0
  | cons part0 rest =>
    simp only [List.getElem?_cons_zero, Option.some.injEq] at h0
    subst h0
    refine ⟨rest.map (argFor p f), parseProfile_ok split lookPath p f _ rest n hs hl,
      by simp, ?_⟩
    intro i tok hi
    simp only [List.getElem?_cons_succ] at hi
    have harg : (rest.map (argFor p f))[i]? = some (argFor p f tok) := by simp [hi]
    rw [harg]
    refine ⟨?_, ?_, ?_, ?_⟩
    · intro h; subst h; rfl
    · intro h; subst h; rfl
    · intro h; subst h; rfl
    · intro h1 h2 h3; simp [argFor, h1, h2, h3]

/-- C1, at a concrete input: the program token is itself `<file>`, the input path is
the string `<seek>`, and the template holds tokens that only contain a placeholder. -/
theorem C1_parseProfile_substitutes_by_exact_token_witness :
    parseProfile (splitTo ["<file>", "<file>", "out.<file>", "<FILE>", "<seek>", "<bitrate>"])
        lookUsrBin (WithSeek (NewProfile "audio/ogg" "opus" 96 "tmpl") 1500000000) "<seek>"
      = ("/usr/bin/<file>", ["<seek>", "out.<file>", "<FILE>", "1500000us", "96k"], none)
    ∧ ∃ args : List String,
      parseProfile (splitTo ["<file>", "<file>", "out.<file>", "<FILE>", "<seek>", "<bitrate>"])
          lookUsrBin (WithSeek (NewProfile "audio/ogg" "opus" 96 "tmpl") 1500000000) "<seek>"
        = ("/usr/bin/<file>", args, none)
      ∧ args.length = 6 - 1
      ∧ ∀ (i : Nat) (tok : String),
          ["<file>", "<file>", "out.<file>", "<FILE>", "<seek>", "<bitrate>"][i + 1]? = some tok →
          (tok = "<file>" → args[i]? = some "<seek>")
          ∧ (tok = "<seek>" → args[i]? = some
              (sprintfD (Microseconds (WithSeek (NewProfile "audio/ogg" "opus" 96 "tmpl")
                1500000000).Seek) ++ "us"))
          ∧ (tok = "<bitrate>" → args[i]? = some
              (sprintfU (WithSeek (NewProfile "audio/ogg" "opus" 96 "tmpl")
                1500000000).BitRate ++ "k"))
          ∧ (tok ≠ "<file>" → tok ≠ "<seek>" → tok ≠ "<bitrate>" → args[i]? = some tok) :=
  ⟨by decide,
   C1_parseProfile_substitutes_by_exact_token
    (splitTo ["<file>", "<file>", "out.<file>", "<FILE>", "<seek>", "<bitrate>"]) lookUsrBin
    (WithSeek (NewProfile "audio/ogg" "opus" 96 "tmpl") 1500000000) "<seek>"
    ["<file>", "<file>", "out.<file>", "<FILE>", "<seek>", "<bitrate>"] "<file>"
    "/usr/bin/<file>" rfl rfl rfl⟩

/-- C2: for the template `encoder -i <file> -b:a <bitrate> -ss <seek> out.<ext>`,
bitrate 128, seek 0 and input path `/tmp/a.wav`, when the template tokenizes into
its eight words and the lookup of `encoder` succeeds, the arguments are exactly
`-i`, `/tmp/a.wav`, `-b:a`, `128k`, `-ss`, `0us`, `out.<ext>`. -/
theorem C2_end_to_end_example {σ ε : Type}
    (split : String → Except σ (List String)) (lookPath : String → Except ε String)
    (p : Profile) (n : String)
    (hexec : p.exec = "encoder -i <file> -b:a <bitrate> -ss <seek> out.<ext>")
    (hbitrate : p.BitRate = 128) (hseek : p.Seek = 0)
    (hs : split "encoder -i <file> -b:a <bitrate> -ss <seek> out.<ext>"
      = .ok ["encoder", "-i", "<file>", "-b:a", "<bitrate>", "-ss", "<seek>", "out.<ext>"])
    (hl : lookPath "encoder" = .ok n) :
    parseProfile split lookPath p "/tmp/a.wav"
      = (n, ["-i", "/tmp/a.wav", "-b:a", "128k", "-ss", "0us", "out.<ext>"], none) := by
  rw [← hexec] at hs
  rw [parseProfile_ok split lookPath p "/tmp/a.wav" _ _ n hs hl]
  have e1 : argFor p "/tmp/a.wav" "-i" = "-i" := by simp [argFor]
  have e2 : argFor p "/tmp/a.wav" "<file>" = "/tmp/a.wav" := rfl
  have e3 : argFor p "/tmp/a.wav" "-b:a" = "-b:a" := by simp [argFor]
  have e4 : argFor p "/tmp/a.wav" "<bitrate>" = "128k" := by
    have h : argFor p "/tmp/a.wav" "<bitrate>" = sprintfU p.BitRate ++ "k" := rfl
    rw [h, hbitrate]; decide
  have e5 : argFor p "/tmp/a.wav" "-ss" = "-ss" := by simp [argFor]
  have e6 : argFor p "/tmp/a.wav" "<seek>" = "0us" := by
    have h : argFor p "/tmp/a.wav" "<seek>" = sprintfD (Microseconds p.Seek) ++ "us" := rfl
    rw [h, hseek]; decide
  have e7 : argFor p "/tmp/a.wav" "out.<ext>" = "out.<ext>" := by simp [argFor]
  simp only [List.map_cons, List.map_nil, e1, e2, e3, e4, e5, e6, e7]

/-- C2, at a Profile built by `NewProfile`, with a tokenizer that returns the eight
words and a search path that holds `encoder`. -/
theorem C2_end_to_end_example_witness :
    parseProfile
        (splitTo ["encoder", "-i", "<file>", "-b:a", "<bitrate>", "-ss", "<seek>", "out.<ext>"])
        lookUsrBin
        (NewProfile "audio/ogg" "opus" 128 "encoder -i <file> -b:a <bitrate> -ss <seek> out.<ext>")
        "/tmp/a.wav"
      = ("/usr/bin/encoder",
          ["-i", "/tmp/a.wav", "-b:a", "128k", "-ss", "0us", "out.<ext>"], none) :=
  C2_end_to_end_example
    (splitTo ["encoder", "-i", "<file>", "-b:a", "<bitrate>", "-ss", "<seek>", "out.<ext>"])
    lookUsrBin
    (NewProfile "audio/ogg" "opus" 128 "encoder -i <file> -b:a <bitrate> -ss <seek> out.<ext>")
    "/usr/bin/encoder" rfl rfl rfl rfl rfl

/-- C3 fails as stated: with the template tokens `ffmpeg -i <file> -f mp3 -` and the
input path `-`, synthesis succeeds, the token `<file>` occurs once after the program
name, and two arguments are equal to the input path. -/
theorem C3_counterexample_literal_token_equals_input :
    parseProfile (splitTo ["ffmpeg", "-i", "<file>", "-f", "mp3", "-"]) lookUsrBin
        (NewProfile "audio/mpeg" "mp3" 128 "ffmpeg -i <file> -f mp3 -") "-"
      = ("/usr/bin/ffmpeg", ["-i", "-", "-f", "mp3", "-"], none)
    ∧ List.count "-"
        (parseProfile (splitTo ["ffmpeg", "-i", "<file>", "-f", "mp3", "-"]) lookUsrBin
          (NewProfile "audio/mpeg" "mp3" 128 "ffmpeg -i <file> -f mp3 -") "-").2.1
      = 2
    ∧ List.count "<file>" ["-i", "<file>", "-f", "mp3", "-"] = 1 := by
  decide

/-- C3, amended: when synthesis succeeds, every argument whose template token is
`<file>` is the input path `f`, so the number of arguments equal to `f` is at least
the number of `<file>` tokens after the program name; the two numbers are equal when
no other token after the program name is itself equal to `f` and `f` is neither the
seek string of an occurring `<seek>` token nor the bitrate string of an occurring
`<bitrate>` token. -/
theorem C3_file_once_per_occurrence {σ ε : Type}
    (split : String → Except σ (List String)) (lookPath : String → Except ε String)
    (p : Profile) (f : String) (part0 : String) (rest : List String) (n : String)
    (hs : split p.exec = .ok (part0 :: rest)) (hl : lookPath part0 = .ok n) :
    (parseProfile split lookPath p f).2.2 = none
    ∧ (∀ i : Nat, rest[i]? = some "<file>" →
        (parseProfile split lookPath p f).2.1[i]? = some f)
    ∧ List.count "<file>" rest ≤ List.count f (parseProfile split lookPath p f).2.1
    ∧ ((∀ tok ∈ rest, tok ≠ "<file>" → tok ≠ "<seek>" → tok ≠ "<bitrate>" → tok ≠ f) →
        ("<seek>" ∈ rest → sprintfD (Microseconds p.Seek) ++ "us" ≠ f) →
        ("<bitrate>" ∈ rest → sprintfU p.BitRate ++ "k" ≠ f) →
        List.count f (parseProfile split lookPath p f).2.1 = List.count "<file>" rest) := by
  refine ⟨?_, ?_, ?_, ?_⟩
  · rw [parseProfile_ok split lookPath p f part0 rest n hs hl]
  · intro i hi
    exact parseProfile_args_get split lookPath p f part0 rest n hs hl i "<file>" hi
  · rw [parseProfile_ok split lookPath p f part0 rest n hs hl]
    exact count_argFor_ge p f rest
  · intro hother hseek hbitrate
    rw [parseProfile_ok split lookPath p f part0 rest n hs hl]
    exact count_argFor_eq p f rest (argFor_ne_of_conditions p f rest hother hseek hbitrate)

/-- C3, amended, at a concrete input: a template with two `<file>` tokens, a
`<bitrate>` token and literal tokens, none of them equal to the input path. -/
theorem C3_file_once_per_occurrence_witness :
    List.count "/tmp/a.wav"
        (parseProfile (splitTo ["ffmpeg", "-i", "<file>", "-b:a", "<bitrate>", "<file>"])
          lookUsrBin (NewProfile "audio/mpeg" "mp3" 128 "tmpl") "/tmp/a.wav").2.1
      = List.count "<file>" ["-i", "<file>", "-b:a", "<bitrate>", "<file>"]
    ∧ List.count "<file>" ["-i", "<file>", "-b:a", "<bitrate>", "<file>"] = 2 :=
  ⟨(C3_file_once_per_occurrence
      (splitTo ["ffmpeg", "-i", "<file>", "-b:a", "<bitrate>", "<file>"]) lookUsrBin
      (NewProfile "audio/mpeg" "mp3" 128 "tmpl") "/tmp/a.wav" "ffmpeg"
      ["-i", "<file>", "-b:a", "<bitrate>", "<file>"] "/usr/bin/ffmpeg" rfl rfl).2.2.2
      (by decide) (by decide) (by decide),
   by decide⟩

/-- C4: for every bitrate `b`, zero included, an argument whose template token is
exactly `<bitrate>` is the decimal string of `b` followed by `k`: a non-empty run of
decimal digits whose value is `b`, without a leading zero unless `b = 0` (then the
single digit `0`); so `192` gives `192k`, `128` gives `128k` and `0` gives `0k`. -/
theorem C4_bitrate_token_decimal_k {σ ε : Type}
    (split : String → Except σ (List String)) (lookPath : String → Except ε String)
    (p : Profile) (f : String) (part0 : String) (rest : List String) (n : String)
    (b : BitRate) (hb : p.BitRate = b)
    (hs : split p.exec = .ok (part0 :: rest)) (hl : lookPath part0 = .ok n)
    (i : Nat) (hi : rest[i]? = some "<bitrate>") :
    (∃ digits : List Char,
      (parseProfile split lookPath p f).2.1[i]? = some (String.mk digits ++ "k")
      ∧ digits ≠ [] ∧ (∀ c ∈ digits, c.isDigit = true) ∧ decimalValue digits = b
      ∧ (b ≠ 0 → digits.head? ≠ some '0') ∧ (b = 0 → digits = ['0']))
    ∧ (b = 192 → (parseProfile split lookPath p f).2.1[i]? = some "192k")
    ∧ (b = 128 → (parseProfile split lookPath p f).2.1[i]? = some "128k")
    ∧ (b = 0 → (parseProfile split lookPath p f).2.1[i]? = some "0k") := by
  have harg := parseProfile_args_get split lookPath p f part0 rest n hs hl i "<bitrate>" hi
  have hfor : argFor p f "<bitrate>" = sprintfU p.BitRate ++ "k" := rfl
  rw [hfor, hb] at harg
  refine ⟨?_, ?_, ?_, ?_⟩
  · obtain ⟨digits, hd, hrest⟩ := sprintfU_spec b
    exact ⟨digits, by rw [harg, hd], hrest⟩
  · intro h; rw [harg, h]; decide
  · intro h; rw [harg, h]; decide
  · intro h; rw [harg, h]; decide

/-- C4, at a concrete input: bitrate 0 and a template with one `<bitrate>` token. -/
theorem C4_bitrate_token_decimal_k_witness :
    (parseProfile (splitTo ["ffmpeg", "-b:a", "<bitrate>"]) lookUsrBin
        (WithBitrate (NewProfile "audio/ogg" "opus" 96 "tmpl") 0) "/tmp/a.wav").2.1[1]?
      = some "0k" :=
  (C4_bitrate_token_decimal_k (splitTo ["ffmpeg", "-b:a", "<bitrate>"]) lookUsrBin
    (WithBitrate (NewProfile "audio/ogg" "opus" 96 "tmpl") 0) "/tmp/a.wav" "ffmpeg"
    ["-b:a", "<bitrate>"] "/usr/bin/ffmpeg" 0 rfl rfl rfl 1 rfl).2.2.2 rfl

/-- C5: for every seek duration that is a whole number `m ≥ 0` of microseconds
(`1000 * m` nanoseconds), an argument whose template token is exactly `<seek>` is the
decimal string of `m` followed by `us`; 2.5 s gives `2500000us`, 1.5 s gives
`1500000us`, and a zero seek is still substituted and gives `0us`. -/
theorem C5_seek_token_microseconds_us {σ ε : Type}
    (split : String → Except σ (List String)) (lookPath : String → Except ε String)
    (p : Profile) (f : String) (part0 : String) (rest : List String) (n : String)
    (m : Nat) (hm : p.Seek = 1000 * (m : Int))
    (hs : split p.exec = .ok (part0 :: rest)) (hl : lookPath part0 = .ok n)
    (i : Nat) (hi : rest[i]? = some "<seek>") :
    (∃ digits : List Char,
      (parseProfile split lookPath p f).2.1[i]? = some (String.mk digits ++ "us")
      ∧ digits ≠ [] ∧ (∀ c ∈ digits, c.isDigit = true) ∧ decimalValue digits = m
      ∧ (m ≠ 0 → digits.head? ≠ some '0') ∧ (m = 0 → digits = ['0']))
    ∧ (p.Seek = 2500000000 → (parseProfile split lookPath p f).2.1[i]? = some "2500000us")
    ∧ (p.Seek = 1500000000 → (parseProfile split lookPath p f).2.1[i]? = some "1500000us")
    ∧ (p.Seek = 0 → (parseProfile split lookPath p f).2.1[i]? = some "0us") := by
  have harg := parseProfile_args_get split lookPath p f part0 rest n hs hl i "<seek>" hi
  have hfor : argFor p f "<seek>" = sprintfD (Microseconds p.Seek) ++ "us" := rfl
  rw [hfor, hm, Microseconds_of_whole, sprintfD_natCast] at harg
  refine ⟨?_, ?_, ?_, ?_⟩
  · obtain ⟨digits, hd, hrest⟩ := sprintfU_spec m
    exact ⟨digits, by rw [harg, hd], hrest⟩
  · intro h
    have h2 : (1000 : Int) * (m : Int) = 2500000000 := hm.symm.trans h
    have hm1 : m = 2500000 := by omega
    rw [harg, hm1]; decide
  · intro h
    have h2 : (1000 : Int) * (m : Int) = 1500000000 := hm.symm.trans h
    have hm1 : m = 1500000 := by omega
    rw [harg, hm1]; decide
  · intro h
    have h2 : (1000 : Int) * (m : Int) = 0 := hm.symm.trans h
    have hm1 : m = 0 := by omega
    rw [harg, hm1]; decide

/-- C5, at a concrete input: a seek of 2.5 s and a template with one `<seek>` token. -/
theorem C5_seek_token_microseconds_us_witness :
    (parseProfile (splitTo ["ffmpeg", "-ss", "<seek>"]) lookUsrBin
        (WithSeek (NewProfile "audio/ogg" "opus" 96 "tmpl") 2500000000) "/tmp/a.wav").2.1[1]?
      = some "2500000us" :=
  (C5_seek_token_microseconds_us (splitTo ["ffmpeg", "-ss", "<seek>"]) lookUsrBin
    (WithSeek (NewProfile "audio/ogg" "opus" 96 "tmpl") 2500000000) "/tmp/a.wav" "ffmpeg"
    ["-ss", "<seek>"] "/usr/bin/ffmpeg" 2500000 rfl rfl rfl 1 rfl).2.1 rfl

/-! ## Command synthesis: failures -/

/-- C6: when the exec template tokenizes to zero parts, `parseProfile` returns an
empty program name, no arguments and `ErrNoProfileParts`, whatever the search-path
lookup would answer and whatever the bitrate, seek, mime and suffix are. -/
theorem C6_zero_parts_gives_ErrNoProfileParts {σ ε : Type}
    (split : String → Except σ (List String)) (lookPath : String → Except ε String)
    (p : Profile) (f : String) (hs : split p.exec = .ok []) :
    parseProfile split lookPath p f = ("", [], some ErrNoProfileParts)
    ∧ (∀ lookPath' : String → Except ε String,
        parseProfile split lookPath' p f = parseProfile split lookPath p f)
    ∧ (∀ (b : BitRate) (d : Duration) (mime suffix : String),
        parseProfile split lookPath ⟨b, d, mime, suffix, p.exec⟩ f
          = ("", [], some ErrNoProfileParts)) := by
  refine ⟨?_, ?_, ?_⟩
  · simp [parseProfile, hs]
  · intro lookPath'
    simp [parseProfile, hs]
  · intro b d mime suffix
    simp [parseProfile, hs]

/-- C6, at a concrete input: the empty template, tokenized to no parts, with a search
path that would resolve any name. -/
theorem C6_zero_parts_gives_ErrNoProfileParts_witness :
    parseProfile (splitTo []) lookUsrBin (NewProfile "audio/ogg" "opus" 96 "") "/tmp/a.wav"
      = ("", [], some ErrNoProfileParts) :=
  (C6_zero_parts_gives_ErrNoProfileParts (splitTo []) lookUsrBin
    (NewProfile "audio/ogg" "opus" 96 "") "/tmp/a.wav" rfl).1

/-- C7: `parseProfile` returns a `nil` error exactly when tokenization succeeds with
at least one token and the lookup of the first token succeeds. Otherwise the program
name is empty, there are no arguments, and the error is, in this order of priority,
the wrapped tokenizer error, `ErrNoProfileParts`, or the wrapped lookup error; the
three are pairwise different, so neither wrapped error is `ErrNoProfileParts`. -/
theorem C7_success_iff_and_error_priority {σ ε : Type}
    (split : String → Except σ (List String)) (lookPath : String → Except ε String)
    (p : Profile) (f : String) :
    ((parseProfile split lookPath p f).2.2 = none ↔
      ∃ (part0 : String) (rest : List String) (n : String),
        split p.exec = .ok (part0 :: rest) ∧ lookPath part0 = .ok n)
    ∧ ((parseProfile split lookPath p f).2.2 ≠ none →
        (parseProfile split lookPath p f).1 = "" ∧ (parseProfile split lookPath p f).2.1 = [])
    ∧ (∀ e : σ, split p.exec = .error e →
        parseProfile split lookPath p f = ("", [], some (ParseError.splitCommand e)))
    ∧ (split p.exec = .ok [] →
        parseProfile split lookPath p f = ("", [], some ErrNoProfileParts))
    ∧ (∀ (part0 : String) (rest : List String) (e : ε),
        split p.exec = .ok (part0 :: rest) → lookPath part0 = .error e →
        parseProfile split lookPath p f = ("", [], some (ParseError.findName e)))
    ∧ (∀ e : σ, (ParseError.splitCommand e : ParseError σ ε) ≠ ErrNoProfileParts)
    ∧ (∀ e : ε, (ParseError.findName e : ParseError σ ε) ≠ ErrNoProfileParts)
    ∧ (∀ (e : σ) (e' : ε),
        (ParseError.splitCommand e : ParseError σ ε) ≠ ParseError.findName e') := by
  refine ⟨?_, ?_, ?_, ?_, ?_, ?_, ?_, ?_⟩
  · unfold parseProfile
    cases hsp : split p.exec with
    | error e => simp
    | ok parts =>
      cases parts with
      | nil => simp
      | cons part0 rest =>
        cases hlp : lookPath part0 with
        | error e => simp [hlp]
        | ok n => simp [hlp]
  · unfold parseProfile
    cases hsp : split p.exec with
    | error e => simp
    | ok parts =>
      cases parts with
      | nil => simp
      | cons part0 rest =>
        cases hlp : lookPath part0 with
        | error e => simp [hlp]
        | ok n => simp [hlp]
  · intro e he
    simp [parseProfile, he]
  · intro he
    simp [parseProfile, he]
  · intro part0 rest e he hl
    simp [parseProfile, he, hl]
  · intro e h
    cases h
  · intro e h
    cases h
  · intro e e' h
    cases h

/-- C7, at a concrete input: the template tokenizes to two tokens and the search path
is empty, so the result is the wrapped lookup error. -/
theorem C7_success_iff_and_error_priority_witness :
    parseProfile (splitTo ["ffmpeg", "<file>"]) lookNothing
        (NewProfile "audio/mpeg" "mp3" 128 "ffmpeg <file>") "/tmp/a.wav"
      = ("", [], some (ParseError.findName "executable file not found in $PATH: ffmpeg")) :=
  (C7_success_iff_and_error_priority (splitTo ["ffmpeg", "<file>"]) lookNothing
    (NewProfile "audio/mpeg" "mp3" 128 "ffmpeg <file>") "/tmp/a.wav").2.2.2.2.1
    "ffmpeg" ["<file>"] "executable file not found in $PATH: ffmpeg" rfl rfl

/-! ## Profile construction and setters -/

/-- C8: `WithBitrate(p, b)` has bitrate `b` and the seek, mime, suffix and exec of
`p`; `WithSeek(p, d)` has seek `d` and the bitrate, mime, suffix and exec of `p`;
applying the same setter twice keeps only the final value. The argument is a value,
so neither call changes `p`. -/
theorem C8_setters_replace_one_field (p : Profile) (b b1 b2 : BitRate) (d d1 d2 : Duration) :
    ((WithBitrate p b).bitrate = b ∧ (WithBitrate p b).seek = p.seek
      ∧ (WithBitrate p b).mime = p.mime ∧ (WithBitrate p b).suffix = p.suffix
      ∧ (WithBitrate p b).exec = p.exec)
    ∧ ((WithSeek p d).seek = d ∧ (WithSeek p d).bitrate = p.bitrate
      ∧ (WithSeek p d).mime = p.mime ∧ (WithSeek p d).suffix = p.suffix
      ∧ (WithSeek p d).exec = p.exec)
    ∧ WithBitrate (WithBitrate p b1) b2 = WithBitrate p b2
    ∧ WithSeek (WithSeek p d1) d2 = WithSeek p d2 :=
  ⟨⟨rfl, rfl, rfl, rfl, rfl⟩, ⟨rfl, rfl, rfl, rfl, rfl⟩, rfl, rfl⟩

/-- C9: `NewProfile(mime, suffix, b, exec)` is defined for all arguments and returns
a Profile with `MIME() = mime`, `Suffix() = suffix`, `BitRate() = b`, `Seek() = 0`
and the exec template `exec` unchanged, an empty or unbalanced-quote template
included. -/
theorem C9_NewProfile_fields (mime suffix exec : String) (b : BitRate) :
    (NewProfile mime suffix b exec).MIME = mime
    ∧ (NewProfile mime suffix b exec).Suffix = suffix
    ∧ (NewProfile mime suffix b exec).BitRate = b
    ∧ (NewProfile mime suffix b exec).Seek = 0
    ∧ (NewProfile mime suffix b exec).exec = exec
    ∧ (NewProfile mime suffix b "").exec = ""
    ∧ (NewProfile mime suffix b "ffmpeg -i \"<file>").exec = "ffmpeg -i \"<file>" :=
  ⟨rfl, rfl, rfl, rfl, rfl, rfl, rfl⟩

/-! ## The built-in registry -/

/-- C10: the registry at the names `mp3` and `opus`. The claim requires a non-empty
suffix and MIME for every entry and an MP3-class pair that differs from the
Opus-class pair; the code's entry `mp3` has an empty suffix and an empty MIME, and
its (suffix, MIME) pair is equal to that of the entry `opus`. -/
theorem C10_registry_entries_empty_at_mp3_and_opus :
    (lookupProfile "mp3").map (fun p => (p.Suffix, p.MIME)) = some ("", "")
    ∧ (lookupProfile "opus").map (fun p => (p.Suffix, p.MIME)) = some ("", "")
    ∧ (lookupProfile "mp3").map (fun p => (p.Suffix, p.MIME))
        = (lookupProfile "opus").map (fun p => (p.Suffix, p.MIME)) := by
  decide

/-- C11: the registry's default bitrates. The claim requires at least three pairwise
different values; in the code the default bitrates of the nine entries of
`UserProfiles` are all `0`, those of `opus`, `opus_128` and `opus_192` included, so
no three entries have pairwise different default bitrates. -/
theorem C11_registry_single_bitrate_tier :
    UserProfiles.map (fun e => e.2.BitRate) = [0, 0, 0, 0, 0, 0, 0, 0, 0]
    ∧ ["opus", "opus_128", "opus_192"].map (fun name => (lookupProfile name).map Profile.BitRate)
        = [some 0, some 0, some 0]
    ∧ ¬ ∃ (n1 n2 n3 : String) (p1 p2 p3 : Profile),
        lookupProfile n1 = some p1 ∧ lookupProfile n2 = some p2 ∧ lookupProfile n3 = some p3
        ∧ p1.BitRate ≠ p2.BitRate ∧ p1.BitRate ≠ p3.BitRate ∧ p2.BitRate ≠ p3.BitRate := by
  refine ⟨by decide, by decide, ?_⟩
  rintro ⟨n1, n2, n3, p1, p2, p3, h1, h2, -, hne, -, -⟩
  rw [lookupProfile_zero n1 p1 h1, lookupProfile_zero n2 p2 h2] at hne
  exact hne rfl

/-- C12: `UserProfiles` has exactly nine keys, all distinct: `mp3`, `mp3_rg`,
`opus_car`, `opus`, `opus_rg`, `opus_128_car`, `opus_128`, `opus_128_rg`, `opus_192`,
bound respectively to `MP3`, `MP3RG`, `OpusRGLoud`, `Opus`, `OpusRG`,
`Opus128RGLoud`, `Opus128`, `Opus128RG`, `Opus192`; a lookup finds an entry exactly
for these names, so not for the empty string nor for `MP3`. -/
theorem C12_registry_keys_and_bindings :
    UserProfiles.length = 9
    ∧ UserProfiles.map Prod.fst
        = ["mp3", "mp3_rg", "opus_car", "opus", "opus_rg", "opus_128_car", "opus_128",
            "opus_128_rg", "opus_192"]
    ∧ (UserProfiles.map Prod.fst).Nodup
    ∧ (lookupProfile "mp3" = some MP3 ∧ lookupProfile "mp3_rg" = some MP3RG
      ∧ lookupProfile "opus_car" = some OpusRGLoud ∧ lookupProfile "opus" = some Opus
      ∧ lookupProfile "opus_rg" = some OpusRG
      ∧ lookupProfile "opus_128_car" = some Opus128RGLoud
      ∧ lookupProfile "opus_128" = some Opus128
      ∧ lookupProfile "opus_128_rg" = some Opus128RG
      ∧ lookupProfile "opus_192" = some Opus192)
    ∧ (∀ name : String,
        name ∉ ["mp3", "mp3_rg", "opus_car", "opus", "opus_rg", "opus_128_car", "opus_128",
          "opus_128_rg", "opus_192"] → lookupProfile name = none)
    ∧ (∀ name : String, lookupProfile name ≠ none →
        name ∈ ["mp3", "mp3_rg", "opus_car", "opus", "opus_rg", "opus_128_car", "opus_128",
          "opus_128_rg", "opus_192"])
    ∧ lookupProfile "" = none
    ∧ lookupProfile "MP3" = none := by
  refine ⟨rfl, rfl, by decide, by decide, ?_, ?_, by decide, by decide⟩
  · intro name hname
    cases hlook : lookupProfile name with
    | none => rfl
    | some p =>
      have hsome : (lookupProfile name).isSome = true := by rw [hlook]; rfl
      exact absurd ((lookupProfile_isSome_iff name).mp hsome) hname
  · intro name hname
    apply (lookupProfile_isSome_iff name).mp
    cases hlook : lookupProfile name with
    | none => exact absurd hlook hname
    | some p => rfl

/-- C12, at a name that differs from a key only by case. -/
theorem C12_registry_keys_and_bindings_witness :
    lookupProfile "Opus_192" = none :=
  C12_registry_keys_and_bindings.2.2.2.2.1 "Opus_192" (by decide)

/-- C14: for every seek duration of `n` nanoseconds, negative or not a multiple of
1000 included, an argument whose template token is exactly `<seek>` is the decimal
string of `n / 1000` truncated toward zero, followed by `us`: a minus sign exactly
when `n ≤ -1000`, then the decimal numeral of `|n|` divided by 1000 rounded down.
So 1999 ns gives `1us`, 999 ns gives `0us` and -1500 ns gives `-1us`. -/
theorem C14_seek_truncates_toward_zero {σ ε : Type}
    (split : String → Except σ (List String)) (lookPath : String → Except ε String)
    (p : Profile) (f : String) (part0 : String) (rest : List String) (name : String)
    (n : Int) (hn : p.Seek = n)
    (hs : split p.exec = .ok (part0 :: rest)) (hl : lookPath part0 = .ok name)
    (i : Nat) (hi : rest[i]? = some "<seek>") :
    (∃ digits : List Char,
      (parseProfile split lookPath p f).2.1[i]?
        = some ((if n ≤ -1000 then "-" else "") ++ String.mk digits ++ "us")
      ∧ digits ≠ [] ∧ (∀ c ∈ digits, c.isDigit = true)
      ∧ decimalValue digits = n.natAbs / 1000
      ∧ (n.natAbs / 1000 ≠ 0 → digits.head? ≠ some '0')
      ∧ (n.natAbs / 1000 = 0 → digits = ['0']))
    ∧ (n = 1999 → (parseProfile split lookPath p f).2.1[i]? = some "1us")
    ∧ (n = 999 → (parseProfile split lookPath p f).2.1[i]? = some "0us")
    ∧ (n = -1500 → (parseProfile split lookPath p f).2.1[i]? = some "-1us") := by
  have harg := parseProfile_args_get split lookPath p f part0 rest name hs hl i "<seek>" hi
  have hfor : argFor p f "<seek>" = sprintfD (Microseconds p.Seek) ++ "us" := rfl
  rw [hfor, hn] at harg
  refine ⟨?_, ?_, ?_, ?_⟩
  · obtain ⟨digits, hd, hrest⟩ := sprintfU_spec (n.natAbs / 1000)
    refine ⟨digits, ?_, hrest⟩
    rw [harg]
    unfold sprintfD
    rw [Microseconds_natAbs, hd]
    by_cases hneg : n ≤ -1000
    · have hlt : Microseconds n < 0 := (Microseconds_neg_iff n).mpr hneg
      simp [hneg, hlt]
    · have hlt : ¬ Microseconds n < 0 := fun h => hneg ((Microseconds_neg_iff n).mp h)
      simp [hneg, hlt]
  · intro h; rw [harg, h]; decide
  · intro h; rw [harg, h]; decide
  · intro h; rw [harg, h]; decide

/-- C14, at a concrete input: a seek of -1500 ns and a template with one `<seek>`
token. -/
theorem C14_seek_truncates_toward_zero_witness :
    (parseProfile (splitTo ["ffmpeg", "-ss", "<seek>"]) lookUsrBin
        (WithSeek (NewProfile "audio/ogg" "opus" 96 "tmpl") (-1500)) "/tmp/a.wav").2.1[1]?
      = some "-1us" :=
  (C14_seek_truncates_toward_zero (splitTo ["ffmpeg", "-ss", "<seek>"]) lookUsrBin
    (WithSeek (NewProfile "audio/ogg" "opus" 96 "tmpl") (-1500)) "/tmp/a.wav" "ffmpeg"
    ["-ss", "<seek>"] "/usr/bin/ffmpeg" (-1500) rfl rfl rfl 1 rfl).2.2.2 rfl

/-- C15: each of the package variables `MP3` .. `Opus192`, and so every Profile
stored in `UserProfiles`, is the zero Profile (bitrate 0, seek 0, empty mime, suffix
and exec); any two entries are equal; and, when the empty template tokenizes to zero
tokens, `parseProfile` on any entry fails with `ErrNoProfileParts` for every input
path. -/
theorem C15_registry_entries_are_zero_profiles {σ ε : Type}
    (split : String → Except σ (List String)) (lookPath : String → Except ε String)
    (hs : split "" = .ok []) :
    (MP3 = ⟨0, 0, "", "", ""⟩ ∧ MP3RG = ⟨0, 0, "", "", ""⟩ ∧ Opus = ⟨0, 0, "", "", ""⟩
      ∧ OpusRG = ⟨0, 0, "", "", ""⟩ ∧ OpusRGLoud = ⟨0, 0, "", "", ""⟩
      ∧ Opus128 = ⟨0, 0, "", "", ""⟩ ∧ Opus128RG = ⟨0, 0, "", "", ""⟩
      ∧ Opus128RGLoud = ⟨0, 0, "", "", ""⟩ ∧ Opus192 = ⟨0, 0, "", "", ""⟩)
    ∧ (∀ (name : String) (p : Profile), lookupProfile name = some p →
        p.bitrate = 0 ∧ p.seek = 0 ∧ p.mime = "" ∧ p.suffix = "" ∧ p.exec = "")
    ∧ (∀ (n1 n2 : String) (p1 p2 : Profile),
        lookupProfile n1 = some p1 → lookupProfile n2 = some p2 → p1 = p2)
    ∧ (∀ (name : String) (p : Profile) (f : String), lookupProfile name = some p →
        parseProfile split lookPath p f = ("", [], some ErrNoProfileParts)) := by
  refine ⟨⟨rfl, rfl, rfl, rfl, rfl, rfl, rfl, rfl, rfl⟩, ?_, ?_, ?_⟩
  · intro name p h
    rw [lookupProfile_zero name p h]
    exact ⟨rfl, rfl, rfl, rfl, rfl⟩
  · intro n1 n2 p1 p2 h1 h2
    rw [lookupProfile_zero n1 p1 h1, lookupProfile_zero n2 p2 h2]
  · intro name p f h
    rw [lookupProfile_zero name p h]
    have hexec : split Profile.zero.exec = .ok [] := hs
    simp [parseProfile, hexec]

/-- C15, at the entry `opus_128_car` and the input path `/tmp/a.wav`, with a
tokenizer that returns no tokens and a search path that would resolve any name. -/
theorem C15_registry_entries_are_zero_profiles_witness :
    lookupProfile "opus_128_car" = some Opus128RGLoud
    ∧ parseProfile (splitTo []) lookUsrBin Opus128RGLoud "/tmp/a.wav"
        = ("", [], some ErrNoProfileParts) :=
  ⟨by decide,
   (C15_registry_entries_are_zero_profiles (splitTo []) lookUsrBin rfl).2.2.2
    "opus_128_car" Opus128RGLoud "/tmp/a.wav" (by decide)⟩

/-- C16: the result of `parseProfile` depends only on the Profile's exec template,
seek and bitrate and on the input path: two Profiles that agree on these three
fields give the same program name, arguments and error, whatever their mime and
suffix, for the same tokenizer and lookup. -/
theorem C16_parseProfile_ignores_mime_and_suffix {σ ε : Type}
    (split : String → Except σ (List String)) (lookPath : String → Except ε String)
    (p q : Profile) (f : String)
    (hexec : p.exec = q.exec) (hseek : p.seek = q.seek) (hbitrate : p.bitrate = q.bitrate) :
    parseProfile split lookPath p f = parseProfile split lookPath q f := by
  unfold parseProfile
  rw [hexec, appendArg_congr p q f hseek hbitrate]

/-- C16, at two Profiles that differ in both mime and suffix, with a template that
uses all three placeholders. -/
theorem C16_parseProfile_ignores_mime_and_suffix_witness :
    parseProfile (splitTo ["ffmpeg", "-ss", "<seek>", "-i", "<file>", "-b:a", "<bitrate>"])
        lookUsrBin (WithSeek (NewProfile "audio/mpeg" "mp3" 128 "tmpl") 1500000000) "/tmp/a.wav"
      = parseProfile (splitTo ["ffmpeg", "-ss", "<seek>", "-i", "<file>", "-b:a", "<bitrate>"])
        lookUsrBin (WithSeek (NewProfile "audio/ogg" "opus" 128 "tmpl") 1500000000) "/tmp/a.wav"
    ∧ (WithSeek (NewProfile "audio/mpeg" "mp3" 128 "tmpl") 1500000000).mime
        ≠ (WithSeek (NewProfile "audio/ogg" "opus" 128 "tmpl") 1500000000).mime
    ∧ (WithSeek (NewProfile "audio/mpeg" "mp3" 128 "tmpl") 1500000000).suffix
        ≠ (WithSeek (NewProfile "audio/ogg" "opus" 128 "tmpl") 1500000000).suffix :=
  ⟨C16_parseProfile_ignores_mime_and_suffix
      (splitTo ["ffmpeg", "-ss", "<seek>", "-i", "<file>", "-b:a", "<bitrate>"]) lookUsrBin
      (WithSeek (NewProfile "audio/mpeg" "mp3" 128 "tmpl") 1500000000)
      (WithSeek (NewProfile "audio/ogg" "opus" 128 "tmpl") 1500000000) "/tmp/a.wav"
      rfl rfl rfl,
   by decide, by decide⟩

/-- C17: the two setters commute, each is read back by its accessor, and setting a
field to its current value returns the Profile unchanged. -/
theorem C17_setters_commute_and_read_back (p : Profile) (b : BitRate) (d : Duration) :
    WithSeek (WithBitrate p b) d = WithBitrate (WithSeek p d) b
    ∧ (WithBitrate p b).BitRate = b
    ∧ (WithSeek p d).Seek = d
    ∧ WithBitrate p p.BitRate = p
    ∧ WithSeek p p.Seek = p :=
  ⟨rfl, rfl, rfl, rfl, rfl⟩

end Transcode
